import Mathlib

/-!
Verification of the Callora webhook notification subsystem: URL admission
validation, the per-developer webhook registry, the signed delivery pipeline
with retry and backoff, and the event fan-out.

Each definition is a shallow embedding of the corresponding TypeScript
source. Effects are made explicit: DNS resolution and URL parsing become
`Option`-valued inputs, HTTP attempts become an outcome sequence, and the
dispatcher produces a trace of the requests it issued and the backoff delays
it performed.
-/

set_option maxRecDepth 4000

namespace Callora

/-! ## URL admission validator (src/webhooks/webhook.validator.ts)

An address returned by `dns.lookup` is IPv4 or IPv6; we represent it by its
numeric value. `ipRangeCheck ip BLOCKED_RANGES` tests CIDR membership: the
address matches a range of the same family whose leading bits agree with
the range's base address. -/

/-- Address returned by DNS resolution: IPv4 (value below 2^32) or IPv6
(value below 2^128). -/
inductive IpAddr where
  | v4 (a : Nat)
  | v6 (a : Nat)
deriving DecidableEq

/-- Numeric value of a dotted-quad IPv4 address. -/
def ipv4 (a b c d : Nat) : Nat := ((a * 256 + b) * 256 + c) * 256 + d

/-- CIDR membership for an IPv4 address: the leading `plen` bits equal the
base address's leading `plen` bits. -/
def inRange4 (ip base plen : Nat) : Bool :=
  ip / 2 ^ (32 - plen) == base / 2 ^ (32 - plen)

/-- CIDR membership for an IPv6 address. -/
def inRange6 (ip base plen : Nat) : Bool :=
  ip / 2 ^ (128 - plen) == base / 2 ^ (128 - plen)

/-- BLOCKED_RANGES of webhook.validator.ts, as the membership test performed
by `ipRangeCheck(ip, BLOCKED_RANGES)`: 10.0.0.0/8, 172.16.0.0/12,
192.168.0.0/16, 127.0.0.0/8, 169.254.0.0/16, ::1/128, fc00::/7, 0.0.0.0/8,
100.64.0.0/10, 198.18.0.0/15, 240.0.0.0/4. A range only matches addresses
of its own family. -/
def inBlockedRanges : IpAddr → Bool
  | .v4 ip =>
      inRange4 ip (ipv4 10 0 0 0) 8 ||
      inRange4 ip (ipv4 172 16 0 0) 12 ||
      inRange4 ip (ipv4 192 168 0 0) 16 ||
      inRange4 ip (ipv4 127 0 0 0) 8 ||
      inRange4 ip (ipv4 169 254 0 0) 16 ||
      inRange4 ip (ipv4 0 0 0 0) 8 ||
      inRange4 ip (ipv4 100 64 0 0) 10 ||
      inRange4 ip (ipv4 198 18 0 0) 15 ||
      inRange4 ip (ipv4 240 0 0 0) 4
  | .v6 ip =>
      inRange6 ip 1 128 ||
      inRange6 ip (252 * 2 ^ 120) 7

/-- Result of `new URL(rawUrl)`: the scheme with its trailing colon
(`protocol`), the hostname, and the explicit port if any (Node's `URL`
yields an empty — falsy — port string when none is explicit, modelled as
`none`). -/
structure ParsedUrl where
  protocol : String
  hostname : String
  port : Option String
deriving DecidableEq

/-- The distinct failure reasons of `validateWebhookUrl`, one per `throw
new WebhookValidationError(...)` site, in source order. -/
inductive ValidationFailure where
  | InvalidFormat
  | SchemeNotAllowed
  | UnresolvableHost
  | PrivateAddressBlocked
  | PortNotAllowed
deriving DecidableEq

/-- Check 4's condition: `parsed.port && !['80','443'].includes(parsed.port)`
(an absent port is the empty string, which is falsy). -/
def portDisallowed : Option String → Bool
  | none => false
  | some p => !(p == "80" || p == "443")

/-- Shallow embedding of `validateWebhookUrl`. `parseResult` is the outcome
of `new URL(rawUrl)` (`none` = the constructor threw); `lookup` is the
outcome of `dns.lookup(parsed.hostname, \x7b all: true \x7d)` (`none` = the
lookup threw). `some f` means the function threw the validation error `f`;
`none` means it returned normally. -/
def validateWebhookUrl (isProduction : Bool) (parseResult : Option ParsedUrl)
    (lookup : Option (List IpAddr)) : Option ValidationFailure :=
  match parseResult with
  | none => some ValidationFailure.InvalidFormat
  | some parsed =>
    if isProduction && !(parsed.protocol == "https:") then
      some ValidationFailure.SchemeNotAllowed
    else
      match lookup with
      | none => some ValidationFailure.UnresolvableHost
      | some addresses =>
        if isProduction && addresses.any inBlockedRanges then
          some ValidationFailure.PrivateAddressBlocked
        else if isProduction && portDisallowed parsed.port then
          some ValidationFailure.PortNotAllowed
        else
          none

/-! ## Data model (src/webhooks/webhook.types.ts) -/

/-- Closed enumeration of event types. -/
inductive WebhookEventType where
  | new_api_call
  | settlement_completed
  | low_balance_alert
deriving DecidableEq

/-- String tag of an event type, as it appears on the wire. -/
def eventName : WebhookEventType → String
  | .new_api_call => "new_api_call"
  | .settlement_completed => "settlement_completed"
  | .low_balance_alert => "low_balance_alert"

/-- WebhookConfig of webhook.types.ts. `createdAt` (a `Date`) is modelled
as an opaque number. -/
structure WebhookConfig where
  developerId : String
  url : String
  events : List WebhookEventType
  secret : Option String
  createdAt : Nat
deriving DecidableEq

/-- WebhookPayload of webhook.types.ts; `data` (`Record<string, unknown>`)
is modelled as key/value pairs. -/
structure WebhookPayload where
  event : WebhookEventType
  timestamp : String
  developerId : String
  data : List (String × String)
deriving DecidableEq

/-! ## Webhook registry (src/webhooks/webhook.store.ts)

The module-level `Map<string, WebhookConfig>` is modelled as an
insertion-ordered association list, matching JavaScript `Map` semantics:
`set` overwrites an existing key in place and otherwise appends, `get`
returns the entry for the key, `delete` removes it, `values()` iterates in
insertion order. -/

/-- State of the module-level `Map<string, WebhookConfig>`. -/
abbrev Store := List (String × WebhookConfig)

/-- JavaScript `Map.prototype.set`: overwrite in place if the key is
present, append otherwise. -/
def mapSet (s : Store) (k : String) (v : WebhookConfig) : Store :=
  if s.any (fun p => p.1 == k) then
    s.map (fun p => if p.1 == k then (k, v) else p)
  else
    s ++ [(k, v)]

namespace WebhookStore

/-- `register(config)`: `store.set(config.developerId, config)`. -/
def register (s : Store) (config : WebhookConfig) : Store :=
  mapSet s config.developerId config

/-- `get(developerId)`: `store.get(developerId)`. -/
def get (s : Store) (developerId : String) : Option WebhookConfig :=
  (s.find? (fun p => p.1 == developerId)).map (fun p => p.2)

/-- `delete(developerId)`: `store.delete(developerId)`. -/
def remove (s : Store) (developerId : String) : Store :=
  s.filter (fun p => !(p.1 == developerId))

/-- `list()`: `[...store.values()]`. -/
def listAll (s : Store) : List WebhookConfig :=
  s.map (fun p => p.2)

/-- `getByEvent(event)`: `[...store.values()].filter(cfg =>
cfg.events.includes(event))`. -/
def getByEvent (s : Store) (event : WebhookEventType) : List WebhookConfig :=
  (s.map (fun p => p.2)).filter (fun cfg => cfg.events.contains event)

end WebhookStore

/-! ## HMAC-SHA256 (Node `crypto`)

Modelled from the library: `crypto.createHmac('sha256', secret)
.update(body).digest('hex')` computes RFC 2104 HMAC over FIPS 180-4
SHA-256 and renders the digest as lowercase hexadecimal. Bytes are `Nat`
values below 256; 32-bit words are `Nat` values below 2^32. -/

/-- Truncation to a 32-bit word. -/
def w32 (n : Nat) : Nat := n % 4294967296

/-- Right rotation of a 32-bit word by `n` bits. -/
def rotr (n x : Nat) : Nat := (x % 2 ^ n) * 2 ^ (32 - n) + x / 2 ^ n

/-- SHA-256 big Sigma-0. -/
def bSig0 (x : Nat) : Nat := rotr 2 x ^^^ rotr 13 x ^^^ rotr 22 x

/-- SHA-256 big Sigma-1. -/
def bSig1 (x : Nat) : Nat := rotr 6 x ^^^ rotr 11 x ^^^ rotr 25 x

/-- SHA-256 small sigma-0. -/
def sSig0 (x : Nat) : Nat := rotr 7 x ^^^ rotr 18 x ^^^ x / 2 ^ 3

/-- SHA-256 small sigma-1. -/
def sSig1 (x : Nat) : Nat := rotr 17 x ^^^ rotr 19 x ^^^ x / 2 ^ 10

/-- SHA-256 choice function. -/
def ch (x y z : Nat) : Nat := (x &&& y) ^^^ ((x ^^^ 4294967295) &&& z)

/-- SHA-256 majority function. -/
def maj (x y z : Nat) : Nat := (x &&& y) ^^^ (x &&& z) ^^^ (y &&& z)

/-- The 64 SHA-256 round constants (FIPS 180-4, in decimal). -/
def K256 : List Nat :=
  [1116352408, 1899447441, 3049323471, 3921009573, 961987163,
   1508970993, 2453635748, 2870763221, 3624381080, 310598401,
   607225278, 1426881987, 1925078388, 2162078206, 2614888103,
   3248222580, 3835390401, 4022224774, 264347078, 604807628,
   770255983, 1249150122, 1555081692, 1996064986, 2554220882,
   2821834349, 2952996808, 3210313671, 3336571891, 3584528711,
   113926993, 338241895, 666307205, 773529912, 1294757372,
   1396182291, 1695183700, 1986661051, 2177026350, 2456956037,
   2730485921, 2820302411, 3259730800, 3345764771, 3516065817,
   3600352804, 4094571909, 275423344, 430227734, 506948616,
   659060556, 883997877, 958139571, 1322822218, 1537002063,
   1747873779, 1955562222, 2024104815, 2227730452, 2361852424,
   2428436474, 2756734187, 3204031479, 3329325298]

/-- Working state of the SHA-256 compression function. -/
structure Sha256State where
  a : Nat
  b : Nat
  c : Nat
  d : Nat
  e : Nat
  f : Nat
  g : Nat
  h : Nat

/-- The SHA-256 initial hash value (FIPS 180-4, in decimal). -/
def sha256Init : Sha256State :=
  ⟨1779033703, 3144134277, 1013904242, 2773480762,
   1359893119, 2600822924, 528734635, 1541459225⟩

/-- One SHA-256 round with round constant `k` and schedule word `w`. -/
def sha256Round (st : Sha256State) (k w : Nat) : Sha256State :=
  let t1 := w32 (st.h + bSig1 st.e + ch st.e st.f st.g + k + w)
  let t2 := w32 (bSig0 st.a + maj st.a st.b st.c)
  ⟨w32 (t1 + t2), st.a, st.b, st.c, w32 (st.d + t1), st.e, st.f, st.g⟩

/-- Run the 64 rounds over the zipped constants and schedule words. -/
def sha256Rounds : Sha256State → List (Nat × Nat) → Sha256State
  | st, [] => st
  | st, (k, w) :: rest => sha256Rounds (sha256Round st k w) rest

/-- Append the next message-schedule word to a schedule of length ≥ 16. -/
def schedStep (ws : List Nat) : List Nat :=
  let t := ws.length
  let w := fun i => ws.getD i 0
  ws ++ [w32 (sSig1 (w (t - 2)) + w (t - 7) + sSig0 (w (t - 15)) + w (t - 16))]

/-- Extend a 16-word block by `n` further schedule words. -/
def buildSchedule (ws : List Nat) : Nat → List Nat
  | 0 => ws
  | n + 1 => buildSchedule (schedStep ws) n

/-- Compress one 16-word block into the running hash state. -/
def sha256Compress (hs : Sha256State) (block : List Nat) : Sha256State :=
  let ws := buildSchedule block 48
  let fin := sha256Rounds hs (K256.zip ws)
  ⟨w32 (hs.a + fin.a), w32 (hs.b + fin.b), w32 (hs.c + fin.c),
   w32 (hs.d + fin.d), w32 (hs.e + fin.e), w32 (hs.f + fin.f),
   w32 (hs.g + fin.g), w32 (hs.h + fin.h)⟩

/-- Fold the compression function over a padded message, 16 words at a
time. -/
def sha256Blocks : Sha256State → List Nat → Sha256State
  | st, w0 :: w1 :: w2 :: w3 :: w4 :: w5 :: w6 :: w7 ::
        w8 :: w9 :: w10 :: w11 :: w12 :: w13 :: w14 :: w15 :: rest =>
      sha256Blocks
        (sha256Compress st [w0, w1, w2, w3, w4, w5, w6, w7,
                            w8, w9, w10, w11, w12, w13, w14, w15]) rest
  | st, _ => st

/-- Big-endian byte expansion of `n` to `k` bytes. -/
def beBytes (n : Nat) : Nat → List Nat
  | 0 => []
  | k + 1 => beBytes (n / 256) k ++ [n % 256]

/-- Group bytes into big-endian 32-bit words. -/
def toWords : List Nat → List Nat
  | b0 :: b1 :: b2 :: b3 :: rest =>
      (((b0 * 256 + b1) * 256 + b2) * 256 + b3) :: toWords rest
  | _ => []

/-- SHA-256 padding: append 0x80, zero bytes to 56 mod 64, then the
64-bit big-endian bit length. -/
def padMessage (msg : List Nat) : List Nat :=
  let l := msg.length
  let zeros := (119 - l % 64) % 64
  msg ++ [128] ++ List.replicate zeros 0 ++ beBytes (8 * l) 8

/-- SHA-256 digest of a byte sequence, as 32 bytes. -/
def sha256Bytes (msg : List Nat) : List Nat :=
  let st := sha256Blocks sha256Init (toWords (padMessage msg))
  ([st.a, st.b, st.c, st.d, st.e, st.f, st.g, st.h].map
    (fun w => beBytes w 4)).flatten

/-- RFC 2104 HMAC-SHA256 over bytes (block size 64). -/
def hmacSha256 (key msg : List Nat) : List Nat :=
  let k0 := if 64 < key.length then sha256Bytes key else key
  let kp := k0 ++ List.replicate (64 - k0.length) 0
  sha256Bytes ((kp.map (fun b => b ^^^ 92)) ++
    sha256Bytes ((kp.map (fun b => b ^^^ 54)) ++ msg))

/-- Lowercase hexadecimal digit: 0-9 then a-f. -/
def hexDigit (n : Nat) : Char :=
  if n < 10 then Char.ofNat (48 + n) else Char.ofNat (87 + n)

/-- Lowercase hexadecimal rendering of a byte sequence. -/
def bytesToHex (bs : List Nat) : String :=
  String.mk ((bs.map (fun b => [hexDigit (b / 16), hexDigit (b % 16)])).flatten)

/-- UTF-8 encoding of one code point. -/
def utf8Encode (c : Nat) : List Nat :=
  if c < 128 then [c]
  else if c < 2048 then [192 + c / 64, 128 + c % 64]
  else if c < 65536 then
    [224 + c / 4096, 128 + c / 64 % 64, 128 + c % 64]
  else
    [240 + c / 262144, 128 + c / 4096 % 64, 128 + c / 64 % 64, 128 + c % 64]

/-- UTF-8 bytes of a string. -/
def strBytes (s : String) : List Nat :=
  (s.data.map (fun ch => utf8Encode ch.toNat)).flatten

/-- Node `crypto.createHmac('sha256', secret).update(body).digest('hex')`:
lowercase hex of the HMAC-SHA256 of the body bytes keyed by the secret. -/
def hmacSha256Hex (secret body : String) : String :=
  bytesToHex (hmacSha256 (strBytes secret) (strBytes body))

/-! ## Delivery dispatcher (src/webhooks/webhook.dispatcher.ts) -/

/-- `signPayload(secret, body)` of webhook.dispatcher.ts. -/
def signPayload (secret body : String) : String :=
  hmacSha256Hex secret body

/-- MAX_RETRIES of webhook.dispatcher.ts. -/
def MAX_RETRIES : Nat := 5

/-- BASE_DELAY_MS of webhook.dispatcher.ts. -/
def BASE_DELAY_MS : Nat := 1000

/-- Outcome of one `axios.post` attempt: a response with its status code,
or a thrown transport error (timeout, DNS failure, connection refused). -/
inductive AttemptOutcome where
  | response (status : Nat)
  | transportError
deriving DecidableEq

/-- The dispatcher's success test: `response.status >= 200 &&
response.status < 300`; a thrown transport error is caught and is not a
success. -/
def isSuccess : AttemptOutcome → Bool
  | .response s => decide (200 ≤ s ∧ s < 300)
  | .transportError => false

/-- One HTTP POST as issued by `axios.post(config.url, body, \x7b headers,
... \x7d)`. -/
structure HttpRequest where
  url : String
  body : String
  headers : List (String × String)
deriving DecidableEq

/-- Observable behaviour of one `dispatchWebhook` call: the POSTs issued in
order, the backoff sleeps performed in order (milliseconds), and whether a
2xx response was reached. The function itself always returns normally, so
the trace type has no error alternative. -/
structure DispatchTrace where
  requests : List HttpRequest
  delays : List Nat
  delivered : Bool
deriving DecidableEq

/-- Headers built before the attempt loop: the three fixed headers, the
event and timestamp echoes, and — when `config.secret` is set — the
signature header `sha256=` + `signPayload(secret, body)` appended last. -/
def buildHeaders (config : WebhookConfig) (payload : WebhookPayload)
    (body : String) : List (String × String) :=
  let base := [("Content-Type", "application/json"),
               ("User-Agent", "Callora-Webhook/1.0"),
               ("X-Callora-Event", eventName payload.event),
               ("X-Callora-Timestamp", payload.timestamp)]
  match config.secret with
  | some s => base ++ [("X-Callora-Signature", "sha256=" ++ signPayload s body)]
  | none => base

/-- The retry loop of `dispatchWebhook`: `attempt` is the current 0-based
attempt index, the second argument the number of attempts left
(`MAX_RETRIES - attempt`). Each iteration issues the POST `req`; on a 2xx
response it returns at once; otherwise (non-2xx or caught transport error)
it sleeps `BASE_DELAY_MS * 2 ^ attempt` when further attempts remain and
continues. -/
def attemptLoop (outcomes : Nat → AttemptOutcome) (req : HttpRequest) :
    Nat → Nat → DispatchTrace
  | _, 0 => { requests := [], delays := [], delivered := false }
  | attempt, remaining + 1 =>
    if isSuccess (outcomes attempt) then
      { requests := [req], delays := [], delivered := true }
    else if remaining = 0 then
      { requests := [req], delays := [], delivered := false }
    else
      let rest := attemptLoop outcomes req (attempt + 1) remaining
      { requests := req :: rest.requests,
        delays := BASE_DELAY_MS * 2 ^ attempt :: rest.delays,
        delivered := rest.delivered }

/-- Shallow embedding of `dispatchWebhook(config, payload)`. `stringify`
is `JSON.stringify` (library call, applied once before the loop);
`outcomes` gives the result of the `axios.post` of each attempt index.
Every throw site of the body lies inside the loop's `try/catch`, so the
function returns a trace for every outcome sequence; failure after the
last attempt is logged, the event dropped, and no exception escapes. -/
def dispatchWebhook (stringify : WebhookPayload → String)
    (config : WebhookConfig) (payload : WebhookPayload)
    (outcomes : Nat → AttemptOutcome) : DispatchTrace :=
  let body := stringify payload
  attemptLoop outcomes
    { url := config.url, body := body,
      headers := buildHeaders config payload body }
    0 MAX_RETRIES

/-- `dispatchToAll(configs, payload)`: `Promise.allSettled(configs.map(cfg
=> dispatchWebhook(cfg, payload)))` — one independent delivery chain per
config, all of them resolved. -/
def dispatchToAll (stringify : WebhookPayload → String)
    (configs : List WebhookConfig) (payload : WebhookPayload)
    (outcomes : WebhookConfig → Nat → AttemptOutcome) : List DispatchTrace :=
  configs.map (fun cfg => dispatchWebhook stringify cfg payload (outcomes cfg))

/-! ## Event fan-out (src/events/event.emitter.ts) -/

/-- Shallow embedding of `handleEvent(event, developerId, data)`: build the
envelope with the supplied timestamp (`new Date().toISOString()`), query
`WebhookStore.getByEvent(event)`, keep the configs of the publishing
developer, and when the filtered list is non-empty run `dispatchToAll`;
when it is empty, do nothing. Returns the delivery traces produced. -/
def handleEvent (s : Store) (event : WebhookEventType) (developerId : String)
    (timestamp : String) (data : List (String × String))
    (stringify : WebhookPayload → String)
    (outcomes : WebhookConfig → Nat → AttemptOutcome) : List DispatchTrace :=
  let payload : WebhookPayload :=
    { event := event, timestamp := timestamp,
      developerId := developerId, data := data }
  let configs := (WebhookStore.getByEvent s event).filter
    (fun cfg => cfg.developerId == developerId)
  if configs.length > 0 then
    dispatchToAll stringify configs payload outcomes
  else
    []

/-- Number of entries of the store registered under a given developer id. -/
def keyCount (s : Store) (k : String) : Nat :=
  s.countP (fun p => p.1 == k)

/-- The registry invariant: at most one configuration per developer id. -/
def AtMostOne (s : Store) : Prop :=
  ∀ k : String, keyCount s k ≤ 1

/-! ## Claims about the URL admission validator -/

/-- C1: in production posture, for every candidate URL that parses and has
the https scheme, if its hostname resolves to at least one address inside
the blocked ranges then validation fails with PrivateAddressBlocked, and
if resolution itself fails it fails with the distinct reason
UnresolvableHost. -/
theorem production_blocks_private_addresses (parsed : ParsedUrl)
    (hscheme : parsed.protocol = "https:") :
    (∀ (addrs : List IpAddr) (a : IpAddr), a ∈ addrs →
      inBlockedRanges a = true →
      validateWebhookUrl true (some parsed) (some addrs) =
        some ValidationFailure.PrivateAddressBlocked) ∧
    validateWebhookUrl true (some parsed) none =
      some ValidationFailure.UnresolvableHost := by
  constructor
  · intro addrs a ha hblocked
    have hany : addrs.any inBlockedRanges = true :=
      List.any_eq_true.mpr ⟨a, ha, hblocked⟩
    simp [validateWebhookUrl, hscheme, hany]
  · simp [validateWebhookUrl, hscheme]

/-- Witness for C1 at `https://internal.example` resolving to 10.0.0.1 (in
10.0.0.0/8), and the same URL with resolution failing. -/
theorem production_blocks_private_addresses_witness :
    validateWebhookUrl true (some ⟨"https:", "internal.example", none⟩)
        (some [IpAddr.v4 (ipv4 10 0 0 1)]) =
      some ValidationFailure.PrivateAddressBlocked ∧
    validateWebhookUrl true (some ⟨"https:", "internal.example", none⟩) none =
      some ValidationFailure.UnresolvableHost := by
  have h := production_blocks_private_addresses
    ⟨"https:", "internal.example", none⟩ rfl
  exact ⟨h.1 [IpAddr.v4 (ipv4 10 0 0 1)] (IpAddr.v4 (ipv4 10 0 0 1))
    (by simp) (by decide), h.2⟩

/-- C8 counterexample: in non-production posture, a string that parses as
an absolute URL is not always accepted — when the hostname fails to
resolve, validation rejects it with UnresolvableHost. -/
theorem nonproduction_rejects_unresolvable :
    validateWebhookUrl false (some ⟨"http:", "dev.internal", none⟩) none =
      some ValidationFailure.UnresolvableHost := rfl

/-- C8 amended: in non-production posture, checks 2 (scheme), the
blocked-range part of check 3, and check 4 (port) are relaxed: every
parseable URL whose hostname resolves to some address list is accepted,
regardless of scheme, of the resolved addresses (blocked ranges included)
and of any explicit port; but the resolution step of check 3 still runs,
so a hostname that fails to resolve is rejected with UnresolvableHost. -/
theorem nonproduction_accepts_resolvable (parsed : ParsedUrl)
    (addrs : List IpAddr) :
    validateWebhookUrl false (some parsed) (some addrs) = none ∧
    validateWebhookUrl false (some parsed) none =
      some ValidationFailure.UnresolvableHost := by
  constructor <;> simp [validateWebhookUrl]

/-- C9: the four checks run in order with distinct reasons: a non-parseable
string yields InvalidFormat in every posture; in production a parseable
non-https URL yields SchemeNotAllowed whatever resolution would say; an
unresolvable host yields UnresolvableHost even with a disallowed explicit
port; and an explicit port other than 80/443 yields PortNotAllowed once
checks 1-3 pass. -/
theorem validate_checks_in_order (posture : Bool) (parsed : ParsedUrl)
    (lookup : Option (List IpAddr)) (addrs : List IpAddr) (p : String) :
    (validateWebhookUrl posture none lookup =
      some ValidationFailure.InvalidFormat) ∧
    (parsed.protocol ≠ "https:" →
      validateWebhookUrl true (some parsed) lookup =
        some ValidationFailure.SchemeNotAllowed) ∧
    (parsed.protocol = "https:" →
      validateWebhookUrl true (some parsed) none =
        some ValidationFailure.UnresolvableHost) ∧
    (parsed.protocol = "https:" → parsed.port = some p → p ≠ "80" →
      p ≠ "443" → (∀ a ∈ addrs, inBlockedRanges a = false) →
      validateWebhookUrl true (some parsed) (some addrs) =
        some ValidationFailure.PortNotAllowed) := by
  refine ⟨rfl, ?_, ?_, ?_⟩
  · intro h
    have hb : (parsed.protocol == "https:") = false := by
      simpa using h
    simp [validateWebhookUrl, hb]
  · intro h
    simp [validateWebhookUrl, h]
  · intro h hp h80 h443 hsafe
    have hany : addrs.any inBlockedRanges = false :=
      List.any_eq_false.mpr (fun a ha => by simp [hsafe a ha])
    have hport : portDisallowed parsed.port = true := by
      rw [hp]
      simp [portDisallowed, h80, h443]
    simp [validateWebhookUrl, h, hany, hport]

/-- Witness for C9 at `http://api.example:8080/` (scheme rejected before
resolution), and `https://api.example:8080/` first with failing resolution
(UnresolvableHost despite the bad port) and then resolving to the public
address 93.184.216.34 (PortNotAllowed). -/
theorem validate_checks_in_order_witness :
    validateWebhookUrl true (some ⟨"http:", "api.example", some "8080"⟩)
      none = some ValidationFailure.SchemeNotAllowed ∧
    validateWebhookUrl true (some ⟨"https:", "api.example", some "8080"⟩)
      none = some ValidationFailure.UnresolvableHost ∧
    validateWebhookUrl true (some ⟨"https:", "api.example", some "8080"⟩)
      (some [IpAddr.v4 (ipv4 93 184 216 34)]) =
      some ValidationFailure.PortNotAllowed := by
  have h1 := validate_checks_in_order true
    ⟨"http:", "api.example", some "8080"⟩ none [] "8080"
  have h2 := validate_checks_in_order true
    ⟨"https:", "api.example", some "8080"⟩ none
    [IpAddr.v4 (ipv4 93 184 216 34)] "8080"
  exact ⟨h1.2.1 (by decide), h2.2.2.1 rfl,
    h2.2.2.2 rfl rfl (by decide) (by decide) (by decide)⟩

/-! ## Claims about the webhook registry -/

/-- Replacing the entry of key `k` in place makes `find?` at `k` yield the
new entry, provided the key occurs. -/
theorem find?_mapReplace (s : Store) (k : String) (v : WebhookConfig)
    (h : s.any (fun p => p.1 == k) = true) :
    (s.map (fun p => if p.1 == k then (k, v) else p)).find?
      (fun p => p.1 == k) = some (k, v) := by
  induction s with
  | nil => simp at h
  | cons a t ih =>
    by_cases ha : (a.1 == k) = true
    · rw [List.map_cons, if_pos ha]
      exact List.find?_cons_of_pos _ (by simp)
    · simp only [List.any_cons] at h
      rw [Bool.or_eq_true] at h
      rcases h with h | h
      · exact absurd h ha
      · rw [List.map_cons, if_neg ha,
          List.find?_cons_of_neg (p := fun q : String × WebhookConfig => q.1 == k) _ ha]
        exact ih h

/-- Appending a fresh entry of key `k` makes `find?` at `k` yield it,
provided the key did not occur. -/
theorem find?_appendNew (s : Store) (k : String) (v : WebhookConfig)
    (h : s.any (fun p => p.1 == k) = false) :
    (s ++ [(k, v)]).find? (fun p => p.1 == k) = some (k, v) := by
  induction s with
  | nil => exact List.find?_cons_of_pos _ (by simp)
  | cons a t ih =>
    simp only [List.any_cons, Bool.or_eq_false_iff] at h
    rw [List.cons_append,
      List.find?_cons_of_neg (p := fun q : String × WebhookConfig => q.1 == k) _ (by simp [h.1])]
    exact ih h.2

/-- A `Map.set` followed by a `Map.get` of the same key returns the value
just set. -/
theorem get_mapSet_self (s : Store) (k : String) (v : WebhookConfig) :
    WebhookStore.get (mapSet s k v) k = some v := by
  unfold WebhookStore.get mapSet
  cases h : s.any (fun p => p.1 == k) with
  | true => rw [if_pos rfl, find?_mapReplace s k v h]; rfl
  | false => rw [if_neg (by simp), find?_appendNew s k v h]; rfl

/-- In-place replacement of key `k` does not change how many entries carry
key `k`. -/
theorem countP_mapReplace_self (s : Store) (k : String) (v : WebhookConfig) :
    (s.map (fun p => if p.1 == k then (k, v) else p)).countP
      (fun p => p.1 == k) = s.countP (fun p => p.1 == k) := by
  rw [List.countP_map]
  apply List.countP_congr
  intro p _
  by_cases hp : (p.1 == k) = true <;> simp [Function.comp, hp]

/-- In-place replacement of key `k` does not increase the number of entries
carrying any other key. -/
theorem countP_mapReplace_ne (s : Store) (k k' : String) (v : WebhookConfig)
    (hkk : (k == k') = false) :
    (s.map (fun p => if p.1 == k then (k, v) else p)).countP
      (fun p => p.1 == k') ≤ s.countP (fun p => p.1 == k') := by
  rw [List.countP_map]
  apply List.countP_mono_left
  intro p _ hp
  by_cases hpk : (p.1 == k) = true
  · exfalso
    have : (k == k') = true := by simpa [Function.comp, hpk] using hp
    rw [hkk] at this
    exact Bool.false_ne_true this
  · simpa [Function.comp, hpk] using hp

/-- The at-most-one-config-per-developer invariant is preserved by
`Map.set`. -/
theorem atMostOne_mapSet (s : Store) (k : String) (v : WebhookConfig)
    (hs : AtMostOne s) : AtMostOne (mapSet s k v) := by
  intro k'
  unfold keyCount mapSet
  cases h : s.any (fun p => p.1 == k) with
  | true =>
    rw [if_pos rfl]
    by_cases hkk : (k == k') = true
    · have hk : k = k' := by simpa using hkk
      subst hk
      rw [countP_mapReplace_self]
      exact hs k
    · exact le_trans
        (countP_mapReplace_ne s k k' v (by simpa using hkk)) (hs k')
  | false =>
    rw [if_neg (by simp), List.countP_append]
    by_cases hkk : (k == k') = true
    · have hk : k = k' := by simpa using hkk
      subst hk
      have h0 : s.countP (fun p => p.1 == k) = 0 :=
        List.countP_eq_zero.mpr (List.any_eq_false.mp h)
      simp [h0, List.countP_cons]
    · have h1 : ([(k, v)] : Store).countP (fun p => p.1 == k') = 0 := by
        simp [List.countP_cons, hkk]
      rw [h1]
      simpa using hs k'

/-- The at-most-one-config-per-developer invariant is preserved by
`Map.delete`. -/
theorem atMostOne_remove (s : Store) (d : String) (hs : AtMostOne s) :
    AtMostOne (WebhookStore.remove s d) := by
  intro k'
  unfold keyCount WebhookStore.remove
  calc (s.filter fun p => !(p.1 == d)).countP (fun p => p.1 == k')
      ≤ s.countP (fun p => p.1 == k') := by
        rw [List.countP_filter]
        exact List.countP_mono_left
          (fun p _ hp => (Bool.and_eq_true_iff.mp hp).1)
    _ ≤ 1 := hs k'

/-- After a `Map.set` of key `k` on a store holding at most one entry of
key `k`, the store holds exactly one entry of key `k`. -/
theorem keyCount_mapSet_self (s : Store) (k : String) (v : WebhookConfig)
    (hs : keyCount s k ≤ 1) : keyCount (mapSet s k v) k = 1 := by
  unfold keyCount mapSet
  cases h : s.any (fun p => p.1 == k) with
  | true =>
    rw [if_pos rfl, countP_mapReplace_self]
    have h1 : 0 < s.countP (fun p => p.1 == k) :=
      List.countP_pos_iff.mpr (List.any_eq_true.mp h)
    unfold keyCount at hs
    omega
  | false =>
    rw [if_neg (by simp), List.countP_append]
    have h0 : s.countP (fun p => p.1 == k) = 0 :=
      List.countP_eq_zero.mpr (List.any_eq_false.mp h)
    simp [h0, List.countP_cons]

/-- C6: the registry holds at most one WebhookConfig per developerId — the
invariant is preserved by register and by remove (reads do not mutate the
store) — and register is a total replacement keyed by developerId:
registering twice for the same developerId leaves exactly one entry, equal
to the second registration's input. -/
theorem registry_at_most_one_per_developer (s : Store)
    (c c1 c2 : WebhookConfig) (d : String) (hs : AtMostOne s)
    (_hd : c1.developerId = c2.developerId) :
    AtMostOne (WebhookStore.register s c) ∧
    AtMostOne (WebhookStore.remove s d) ∧
    keyCount (WebhookStore.register (WebhookStore.register s c1) c2)
      c2.developerId = 1 ∧
    WebhookStore.get (WebhookStore.register (WebhookStore.register s c1) c2)
      c2.developerId = some c2 := by
  refine ⟨atMostOne_mapSet s c.developerId c hs,
          atMostOne_remove s d hs, ?_, get_mapSet_self _ _ _⟩
  exact keyCount_mapSet_self _ _ _
    (atMostOne_mapSet s c1.developerId c1 hs c2.developerId)

/-- First registration of developer dev1, without a secret. -/
def cfgA : WebhookConfig :=
  ⟨"dev1", "https://a.example/hook", [.new_api_call], none, 0⟩

/-- Second registration of developer dev1, carrying a secret. -/
def cfgB : WebhookConfig :=
  ⟨"dev1", "https://b.example/hook", [.settlement_completed], some "whsec", 1⟩

/-- Witness for C6: registering dev1 twice on the empty store leaves
exactly one entry, equal to the second registration. -/
theorem registry_at_most_one_per_developer_witness :
    keyCount (WebhookStore.register (WebhookStore.register [] cfgA) cfgB)
      cfgB.developerId = 1 ∧
    WebhookStore.get (WebhookStore.register (WebhookStore.register [] cfgA)
      cfgB) cfgB.developerId = some cfgB := by
  have h := registry_at_most_one_per_developer [] cfgA cfgA cfgB "dev1"
    (fun k => by simp [keyCount]) rfl
  exact ⟨h.2.2.1, h.2.2.2⟩

/-- C10 counterexample: a configuration stored with a secret is returned by
`get` with the secret field still present (`some "whsec"`), not absent. -/
theorem get_returns_stored_secret :
    WebhookStore.get (WebhookStore.register [] cfgB) "dev1" = some cfgB ∧
    cfgB.secret = some "whsec" :=
  ⟨by decide, rfl⟩

/-- C10 amended: `get(developerId)` returns the stored configuration
exactly as registered — including the secret field whenever one was
stored; the store does not strip the secret before returning it. -/
theorem get_returns_config_verbatim (s : Store) (c : WebhookConfig) :
    WebhookStore.get (WebhookStore.register s c) c.developerId = some c :=
  get_mapSet_self s c.developerId c

/-! ## Claims about the delivery dispatcher -/

/-- Concrete envelope used by the witnesses. -/
def payW : WebhookPayload :=
  ⟨.new_api_call, "2025-06-10T14:32:00.000Z", "dev1", [("apiId", "api1")]⟩

/-- One-step unfolding of the retry loop when attempts remain. -/
theorem attemptLoop_succ (outcomes : Nat → AttemptOutcome)
    (req : HttpRequest) (attempt n : Nat) :
    attemptLoop outcomes req attempt (n + 1) =
      if isSuccess (outcomes attempt) then
        { requests := [req], delays := [], delivered := true }
      else if n = 0 then
        { requests := [req], delays := [], delivered := false }
      else
        { requests := req :: (attemptLoop outcomes req (attempt + 1) n).requests,
          delays := BASE_DELAY_MS * 2 ^ attempt ::
            (attemptLoop outcomes req (attempt + 1) n).delays,
          delivered := (attemptLoop outcomes req (attempt + 1) n).delivered } :=
  rfl

/-- Backoff delays produced by consecutive failed attempts: `n` sleeps of
`BASE_DELAY_MS * 2 ^ i`, for `i` counting up from `attempt`. -/
def geomDelays : Nat → Nat → List Nat
  | _, 0 => []
  | attempt, n + 1 =>
      BASE_DELAY_MS * 2 ^ attempt :: geomDelays (attempt + 1) n

/-- When every attempt of the window fails, the retry loop issues one POST
per attempt, sleeps the exponential backoff after each attempt but the
last, and ends undelivered. -/
theorem attemptLoop_all_fail (outcomes : Nat → AttemptOutcome)
    (req : HttpRequest) :
    ∀ (remaining attempt : Nat),
      (∀ i, i < remaining → isSuccess (outcomes (attempt + i)) = false) →
      attemptLoop outcomes req attempt remaining =
        { requests := List.replicate remaining req,
          delays := geomDelays attempt (remaining - 1),
          delivered := false }
  | 0, _, _ => rfl
  | 1, attempt, h => by
      have h0 : isSuccess (outcomes attempt) = false := by
        simpa using h 0 Nat.one_pos
      rw [attemptLoop_succ, h0]
      simp [geomDelays]
  | r + 2, attempt, h => by
      have h0 : isSuccess (outcomes attempt) = false := by
        simpa using h 0 (by omega)
      have ih := attemptLoop_all_fail outcomes req (r + 1) (attempt + 1)
        (fun i hi => by
          have hh := h (i + 1) (by omega)
          rwa [show attempt + (i + 1) = attempt + 1 + i from by omega] at hh)
      rw [attemptLoop_succ, h0, if_neg (by simp), if_neg (by omega), ih]
      simp [geomDelays, List.replicate_succ]

/-- C2: when the target fails every attempt (non-2xx status or transport
error), dispatchWebhook makes exactly 5 POST attempts, waits
`1000 * 2 ^ i` milliseconds after failed attempt `i` for `i` in 0..3 —
delays of 1s, 2s, 4s, 8s between consecutive attempts, none after the
fifth — then drops the event: the call completes with a full undelivered
trace and raises nothing to the publisher. -/
theorem dispatch_five_attempts_then_drop (stringify : WebhookPayload → String)
    (config : WebhookConfig) (payload : WebhookPayload)
    (outcomes : Nat → AttemptOutcome)
    (hfail : ∀ i, i < MAX_RETRIES → isSuccess (outcomes i) = false) :
    dispatchWebhook stringify config payload outcomes =
      { requests := List.replicate 5
          { url := config.url, body := stringify payload,
            headers := buildHeaders config payload (stringify payload) },
        delays := [1000, 2000, 4000, 8000],
        delivered := false } := by
  have he : dispatchWebhook stringify config payload outcomes =
      attemptLoop outcomes
        { url := config.url, body := stringify payload,
          headers := buildHeaders config payload (stringify payload) }
        0 MAX_RETRIES := rfl
  rw [he, attemptLoop_all_fail outcomes _ MAX_RETRIES 0
    (fun i hi => by simpa using hfail i hi)]
  rfl

/-- Witness for C2: a target answering 500 on every attempt. -/
theorem dispatch_five_attempts_then_drop_witness :
    dispatchWebhook (fun _ => "body") cfgA payW
      (fun _ => AttemptOutcome.response 500) =
      { requests := List.replicate 5
          { url := cfgA.url, body := "body",
            headers := buildHeaders cfgA payW "body" },
        delays := [1000, 2000, 4000, 8000],
        delivered := false } :=
  dispatch_five_attempts_then_drop (fun _ => "body") cfgA payW
    (fun _ => AttemptOutcome.response 500) (fun _ _ => rfl)

/-- C3: a response with status in [200,300) on the first attempt yields
exactly one HTTP call, no backoff sleep, and immediate success. -/
theorem dispatch_first_attempt_success (stringify : WebhookPayload → String)
    (config : WebhookConfig) (payload : WebhookPayload)
    (outcomes : Nat → AttemptOutcome) (s : Nat)
    (h0 : outcomes 0 = AttemptOutcome.response s) (h1 : 200 ≤ s)
    (h2 : s < 300) :
    dispatchWebhook stringify config payload outcomes =
      { requests := [⟨config.url, stringify payload,
          buildHeaders config payload (stringify payload)⟩],
        delays := [], delivered := true } := by
  have he : dispatchWebhook stringify config payload outcomes =
      attemptLoop outcomes
        { url := config.url, body := stringify payload,
          headers := buildHeaders config payload (stringify payload) }
        0 (4 + 1) := rfl
  rw [he, attemptLoop_succ, h0]
  simp [isSuccess, h1, h2]

/-- Witness for C3: a target answering 204 at once. -/
theorem dispatch_first_attempt_success_witness :
    dispatchWebhook (fun _ => "body") cfgA payW
      (fun _ => AttemptOutcome.response 204) =
      { requests := [⟨cfgA.url, "body", buildHeaders cfgA payW "body"⟩],
        delays := [], delivered := true } :=
  dispatch_first_attempt_success (fun _ => "body") cfgA payW
    (fun _ => AttemptOutcome.response 204) 204 rfl (by decide) (by decide)

/-- Every request issued by the retry loop equals the fixed request built
before the loop. -/
theorem attemptLoop_requests_eq (outcomes : Nat → AttemptOutcome)
    (req : HttpRequest) :
    ∀ (remaining attempt : Nat),
      ∀ r ∈ (attemptLoop outcomes req attempt remaining).requests, r = req
  | 0, _ => by intro r hr; simp [attemptLoop] at hr
  | n + 1, attempt => by
    intro r hr
    rw [attemptLoop_succ] at hr
    by_cases hs : isSuccess (outcomes attempt) = true
    · rw [if_pos hs] at hr
      simpa using hr
    · rw [if_neg hs] at hr
      by_cases hn : n = 0
      · rw [if_pos hn] at hr
        simpa using hr
      · rw [if_neg hn] at hr
        simp only [List.mem_cons] at hr
        rcases hr with rfl | hr
        · rfl
        · exact attemptLoop_requests_eq outcomes req n (attempt + 1) r hr

/-- C5: when the config carries a secret, every request of the trace —
across all retry attempts of the same envelope — equals the one request
built before the loop (the envelope is serialized once), and its headers
contain X-Callora-Signature with value `sha256=` followed by the lowercase
hex HMAC-SHA256, keyed by the secret, of the exact serialized body. -/
theorem signature_header_stable (stringify : WebhookPayload → String)
    (config : WebhookConfig) (payload : WebhookPayload)
    (outcomes : Nat → AttemptOutcome) (sec : String)
    (hsec : config.secret = some sec) :
    ∀ r ∈ (dispatchWebhook stringify config payload outcomes).requests,
      r = { url := config.url, body := stringify payload,
            headers := buildHeaders config payload (stringify payload) } ∧
      ("X-Callora-Signature",
        "sha256=" ++ signPayload sec (stringify payload)) ∈ r.headers := by
  intro r hr
  have hreq := attemptLoop_requests_eq outcomes _ MAX_RETRIES 0 r hr
  refine ⟨hreq, ?_⟩
  rw [hreq]
  simp [buildHeaders, hsec]

/-- Witness for C5: a secreted config delivered successfully at once; the
signature header of the issued request is `sha256=` + the keyed digest of
the body. -/
theorem signature_header_stable_witness :
    ("X-Callora-Signature", "sha256=" ++ signPayload "whsec" "body") ∈
      buildHeaders cfgB payW "body" := by
  have h := signature_header_stable (fun _ => "body") cfgB payW
    (fun _ => AttemptOutcome.response 200) "whsec" rfl
  have hm : (⟨cfgB.url, "body", buildHeaders cfgB payW "body"⟩ : HttpRequest) ∈
      (dispatchWebhook (fun _ => "body") cfgB payW
        (fun _ => AttemptOutcome.response 200)).requests := by
    show _ ∈ [(⟨cfgB.url, "body", buildHeaders cfgB payW "body"⟩ : HttpRequest)]
    exact List.mem_singleton.mpr rfl
  simpa using (h _ hm).2

/-- Each run of the retry loop either delivers or uses up every remaining
attempt. -/
theorem attemptLoop_total (outcomes : Nat → AttemptOutcome)
    (req : HttpRequest) :
    ∀ (remaining attempt : Nat),
      (attemptLoop outcomes req attempt remaining).delivered = true ∨
      (attemptLoop outcomes req attempt remaining).requests.length = remaining
  | 0, _ => Or.inr rfl
  | n + 1, attempt => by
    rw [attemptLoop_succ]
    by_cases hs : isSuccess (outcomes attempt) = true
    · rw [if_pos hs]
      exact Or.inl rfl
    · rw [if_neg hs]
      by_cases hn : n = 0
      · rw [if_pos hn]
        right
        simp [hn]
      · rw [if_neg hn]
        rcases attemptLoop_total outcomes req n (attempt + 1) with h | h
        · exact Or.inl h
        · right
          simp [h]

/-- C7: for every configuration, payload and per-attempt outcome sequence,
dispatchWebhook returns normally — the trace is complete, either delivered
or dropped after exactly MAX_RETRIES attempts — and dispatchToAll resolves
with one settled trace per target even when every chain fails: delivery
errors never propagate to the publisher. -/
theorem dispatch_never_raises (stringify : WebhookPayload → String)
    (config : WebhookConfig) (payload : WebhookPayload)
    (outcomes : Nat → AttemptOutcome) (configs : List WebhookConfig)
    (outcomesAll : WebhookConfig → Nat → AttemptOutcome) :
    ((dispatchWebhook stringify config payload outcomes).delivered = true ∨
      (dispatchWebhook stringify config payload outcomes).requests.length =
        MAX_RETRIES) ∧
    (dispatchToAll stringify configs payload outcomesAll).length =
      configs.length ∧
    ∀ t ∈ dispatchToAll stringify configs payload outcomesAll,
      t.delivered = true ∨ t.requests.length = MAX_RETRIES := by
  refine ⟨attemptLoop_total outcomes _ MAX_RETRIES 0, by
    simp [dispatchToAll], ?_⟩
  intro t ht
  rcases List.mem_map.mp ht with ⟨cfg, _, rfl⟩
  exact attemptLoop_total (outcomesAll cfg) _ MAX_RETRIES 0

/-- Witness for C7: transport errors on every attempt toward two targets;
both chains settle. -/
theorem dispatch_never_raises_witness :
    ((dispatchWebhook (fun _ => "body") cfgA payW
        (fun _ => AttemptOutcome.transportError)).delivered = true ∨
      (dispatchWebhook (fun _ => "body") cfgA payW
        (fun _ => AttemptOutcome.transportError)).requests.length =
        MAX_RETRIES) ∧
    (dispatchToAll (fun _ => "body") [cfgA, cfgB] payW
      (fun _ _ => AttemptOutcome.transportError)).length = 2 := by
  have h := dispatch_never_raises (fun _ => "body") cfgA payW
    (fun _ => AttemptOutcome.transportError) [cfgA, cfgB]
    (fun _ _ => AttemptOutcome.transportError)
  exact ⟨h.1, h.2.1⟩

/-! ## Claims about the event fan-out -/

/-- C4: publishing (eventType, developerId, data) targets exactly the
registry configurations subscribed to the event type and owned by the
publishing developer; every HTTP request issued goes to such a config's
URL — never to another developer's URL — and when the filtered set is
empty nothing happens (an empty trace list, not an error). -/
theorem fanout_targets_exact (s : Store) (event : WebhookEventType)
    (developerId : String) (timestamp : String)
    (data : List (String × String)) (stringify : WebhookPayload → String)
    (outcomes : WebhookConfig → Nat → AttemptOutcome) :
    (∀ cfg : WebhookConfig,
      cfg ∈ (WebhookStore.getByEvent s event).filter
          (fun cfg => cfg.developerId == developerId) ↔
        cfg ∈ WebhookStore.listAll s ∧ event ∈ cfg.events ∧
          cfg.developerId = developerId) ∧
    (∀ t ∈ handleEvent s event developerId timestamp data stringify outcomes,
      ∀ r ∈ t.requests,
        ∃ cfg, cfg ∈ WebhookStore.listAll s ∧ event ∈ cfg.events ∧
          cfg.developerId = developerId ∧ r.url = cfg.url) ∧
    ((WebhookStore.getByEvent s event).filter
        (fun cfg => cfg.developerId == developerId) = [] →
      handleEvent s event developerId timestamp data stringify outcomes
        = []) := by
  have hchar : ∀ cfg : WebhookConfig,
      cfg ∈ (WebhookStore.getByEvent s event).filter
          (fun cfg => cfg.developerId == developerId) ↔
        cfg ∈ WebhookStore.listAll s ∧ event ∈ cfg.events ∧
          cfg.developerId = developerId := by
    intro cfg
    simp [WebhookStore.getByEvent, WebhookStore.listAll, List.mem_filter,
      and_assoc]
    intro x hx
    exact and_comm
  refine ⟨hchar, ?_, ?_⟩
  · intro t ht r hr
    simp only [handleEvent] at ht
    split at ht
    · rcases List.mem_map.mp ht with ⟨cfg, hcfg, rfl⟩
      rcases (hchar cfg).mp hcfg with ⟨hmem, hev, hdev⟩
      have hreq := attemptLoop_requests_eq (outcomes cfg) _ MAX_RETRIES 0 r hr
      exact ⟨cfg, hmem, hev, hdev, by rw [hreq]⟩
    · simp at ht
  · intro hempty
    simp [handleEvent, hempty]

/-- Third developer's configuration, subscribed to the same event as
dev1's. -/
def cfgC : WebhookConfig :=
  ⟨"dev2", "https://c.example/hook", [.new_api_call], none, 2⟩

/-- Concrete registry holding dev1 and dev2. -/
def storeW : Store := [("dev1", cfgA), ("dev2", cfgC)]

/-- Witness for C4: with dev1 and dev2 both subscribed to new_api_call,
dev1's config is targeted for dev1's publish, and a publish of an event
nobody of dev1 subscribes to produces no deliveries. -/
theorem fanout_targets_exact_witness :
    cfgA ∈ (WebhookStore.getByEvent storeW WebhookEventType.new_api_call).filter
      (fun cfg => cfg.developerId == "dev1") ∧
    handleEvent storeW WebhookEventType.low_balance_alert "dev1" "ts" []
      (fun _ => "body") (fun _ _ => AttemptOutcome.response 200) = [] := by
  have h1 := fanout_targets_exact storeW WebhookEventType.new_api_call "dev1"
    "ts" [] (fun _ => "body") (fun _ _ => AttemptOutcome.response 200)
  have h2 := fanout_targets_exact storeW WebhookEventType.low_balance_alert
    "dev1" "ts" [] (fun _ => "body") (fun _ _ => AttemptOutcome.response 200)
  exact ⟨(h1.1 cfgA).mpr (by decide), h2.2.2 (by decide)⟩

end Callora
